import Mathlib

set_option maxRecDepth 100000

/-!
Verification development for `coherent.docs` (`core.py`): module discovery,
index-page generation, subprocess-environment construction, package-name
resolution, and the scaffold-file scope.

Strings are handled through `List Char` primitives so that every definition
evaluates on concrete inputs.
-/

/-- Boolean lexicographic order on character lists, by code point.  This is
the order Python uses to compare strings. -/
def lexLe : List Char → List Char → Bool
  | [], _ => true
  | _ :: _, [] => false
  | a :: as, b :: bs => if a < b then true else if a = b then lexLe as bs else false

/-- Lexicographic order on strings (Python string `<=`). -/
def strLe (a b : String) : Bool := lexLe a.toList b.toList

/-- Split a character list on a separator character; mirrors Python
`str.split(sep)`: always returns a non-empty list, empty input gives `[[]]`. -/
def splitOnChar (sep : Char) : List Char → List (List Char)
  | [] => [[]]
  | c :: cs =>
    let rest := splitOnChar sep cs
    if c = sep then [] :: rest
    else
      match rest with
      | [] => [[c]]
      | r :: rs => (c :: r) :: rs

/-- Number of occurrences of `'.'` in a string (Python `m.count('.')` in the
sort key of `find_modules`). -/
def countDots (s : String) : Nat := s.toList.count '.'

/-- Python `pathlib.PurePath.with_suffix('')` applied to a file name: drop the
final dot-suffix, except that a dot at position 0 does not start a suffix. -/
def withSuffixEmpty (name : String) : String :=
  let cs := name.toList
  let tailLen := (cs.reverse.takeWhile (fun c => c != '.')).length
  if tailLen = cs.length then name
  else if cs.length - 1 - tailLen = 0 then name
  else String.mk (cs.take (cs.length - 1 - tailLen))

/-- Python `p.startswith('_')` on a path component. -/
def startsWithUnderscore (s : String) : Bool :=
  match s.toList with
  | [] => false
  | c :: _ => c == '_'

/-- Python `name.endswith('.py')`, the `rglob('*.py')` match on a file name. -/
def endsWithPy (s : String) : Bool :=
  match s.toList.reverse with
  | 'y' :: 'p' :: '.' :: _ => true
  | _ => false

/-- Filesystem abstraction for `find_modules`: the regular files and the
directories that exist under the root, each given by its list of path
components relative to the root. -/
structure FS where
  files : List (List String)
  dirs : List (List String)

/-- Python `Path.exists()` for a path relative to the root of an `FS`. -/
def pathExists (fs : FS) (p : List String) : Bool :=
  fs.files.contains p || fs.dirs.contains p

/-- Characters of a relative path joined with `'/'`, the string pathlib
compares when sorting paths on POSIX. -/
def pathChars : List String → List Char
  | [] => []
  | [x] => x.toList
  | x :: xs => x.toList ++ '/' :: pathChars xs

/-- Boolean order on relative paths used by `sorted(pkg_dir.rglob('*.py'))`. -/
def pathLe (p q : List String) : Bool := lexLe (pathChars p) (pathChars q)

/-- Propositional form of `pathLe`, for `List.insertionSort`. -/
def PathLeP (p q : List String) : Prop := pathLe p q = true

instance : DecidableRel PathLeP :=
  fun p q => inferInstanceAs (Decidable (pathLe p q = true))

/-- Sort the candidate files, as `sorted(pkg_dir.rglob('*.py'))` does.  A
stable sort; the exact algorithm does not matter because the final sort key
of `find_modules` is antisymmetric. -/
def sortPaths (ps : List (List String)) : List (List String) :=
  List.insertionSort PathLeP ps

/-- Whether a path names a `*.py` file (non-empty, last component ends in
`.py`). -/
def isPyFile (p : List String) : Bool :=
  match p with
  | [] => false
  | _ => endsWithPy (p.getLastD "")

/-- Candidate files for the flat layout: every `*.py` file under the root. -/
def flatCandidates (fs : FS) : List (List String) :=
  fs.files.filter isPyFile

/-- Candidate files for the nested layout: every `*.py` file under the
`top` subdirectory, taken relative to it. -/
def nestedCandidates (top : String) (fs : FS) : List (List String) :=
  (fs.files.filter
    (fun p => (p.headD "" == top) && decide (2 ≤ p.length) && isPyFile p)).map
    (fun p => p.drop 1)

/-- Python `rel.with_suffix('').parts` followed by dropping a trailing
`__init__` component (an initializer file stands for its directory). -/
def relParts (rel : List String) : List String :=
  let parts := rel.dropLast ++ [withSuffixEmpty (rel.getLastD "")]
  if parts.getLastD "" == "__init__" then parts.dropLast else parts

/-- Parts of a candidate module, or `none` when some remaining component
starts with the private marker `'_'`. -/
def moduleParts (rel : List String) : Option (List String) :=
  let parts := relParts rel
  if parts.any startsWithUnderscore then none else some parts

/-- Python `'.'.join(parts)`. -/
def dottedJoin : List String → String
  | [] => ""
  | [x] => x
  | x :: xs => x ++ "." ++ dottedJoin xs

/-- The `to_module` helper of `find_modules`: empty parts name the root
module itself, otherwise the parts are appended dotted. -/
def toModule (rootName : String) (parts : List String) : String :=
  match parts with
  | [] => rootName
  | _ => rootName ++ "." ++ dottedJoin parts

/-- The body of the collection loop of `find_modules`: walk the sorted
candidates, strip suffix and `__init__`, skip private components, and build
dotted names. -/
def collectModules (candidates : List (List String)) (rootName : String) : List String :=
  (sortPaths candidates).filterMap (fun rel => (moduleParts rel).map (toModule rootName))

/-- Sort key order of `find_modules`: `(m.count('.'), m)` compared
lexicographically, i.e. fewer dots first, ties by string order. -/
def moduleKeyLe (a b : String) : Bool :=
  decide (countDots a < countDots b) || (decide (countDots a = countDots b) && strLe a b)

/-- Propositional form of `moduleKeyLe`, for `List.insertionSort`. -/
def ModLe (a b : String) : Prop := moduleKeyLe a b = true

instance : DecidableRel ModLe :=
  fun a b => inferInstanceAs (Decidable (moduleKeyLe a b = true))

/-- The final `modules.sort(key=lambda m: (m.count('.'), m))`.  A stable
sort; the key is antisymmetric (it contains the whole name), so any stable
sort produces the same list as Python's. -/
def sortModules (l : List String) : List String :=
  List.insertionSort ModLe l

/-- Python `package_name.replace('-', '_').split('.')[0]`. -/
def topComponent (package_name : String) : String :=
  String.mk ((splitOnChar '.'
    (package_name.toList.map (fun c => if c = '-' then '_' else c))).headD [])

/-- Embedding of `find_modules` from `core.py`: flat layout when the root has
an `__init__.py`, otherwise the nested layout under `topComponent`, otherwise
the bare package name. -/
def find_modules (package_name : String) (fs : FS) : List String :=
  if pathExists fs ["__init__.py"] then
    sortModules (collectModules (flatCandidates fs) package_name)
  else
    let top := topComponent package_name
    if pathExists fs [top] then
      sortModules (collectModules (nestedCandidates top fs) top)
    else [package_name]

/-- The module list of `find_modules` before its final sort (the `modules`
accumulator right after the loop). -/
def rawModules (package_name : String) (fs : FS) : List String :=
  if pathExists fs ["__init__.py"] then
    collectModules (flatCandidates fs) package_name
  else
    let top := topComponent package_name
    if pathExists fs [top] then
      collectModules (nestedCandidates top fs) top
    else [package_name]

/-- Python `str.title()` restricted to ASCII letters: an alphabetic character
is uppercased after a non-alphabetic one and lowercased otherwise. -/
def titleChars : Bool → List Char → List Char
  | _, [] => []
  | prevAlpha, c :: cs =>
    if c.isAlpha then
      (if prevAlpha then c.toLower else c.toUpper) :: titleChars true cs
    else c :: titleChars false cs

/-- Python `s.title()` on a string. -/
def pyTitle (s : String) : String := String.mk (titleChars false s.toList)

/-- Section label of `make_index_rst`:
`mod.split('.')[-1].replace('_', ' ').title()`. -/
def headerLabel (mod : String) : String :=
  pyTitle (String.mk (((splitOnChar '.' mod.toList).getLastD []).map
    (fun c => if c = '_' then ' ' else c)))

/-- Section header entry of `make_index_rst`: the label underlined with a
dash rule of the label's length. -/
def headerBlock (mod : String) : String :=
  "\n" ++ headerLabel mod ++ "\n" ++ String.mk (List.replicate (headerLabel mod).length '-') ++ "\n"

/-- The `automodule` directive entry of `make_index_rst` for one module. -/
def automoduleBlock (mod : String) : String :=
  "\n.. automodule:: " ++ mod ++
    "\n   :members:\n   :undoc-members:\n   :show-inheritance:\n"

/-- Loop body of `make_index_rst`: each module is compared by value with
`modules[0]` and contributes a header entry when it differs, then its
directive entry.  `first` is `modules[0]`. -/
def entriesFrom (first : String) : List String → String
  | [] => ""
  | mod :: rest =>
    (if mod == first then "" else headerBlock mod) ++
      (automoduleBlock mod ++ entriesFrom first rest)

/-- The `''.join(entries)` body of `make_index_rst`; on an empty module list
the loop never runs and `modules[0]` is never read. -/
def entriesBody : List String → String
  | [] => ""
  | first :: rest => entriesFrom first (first :: rest)

/-- Fixed part of the index page before the generated module entries. -/
def pageHead : String :=
  "Welcome to |project| documentation!\n===================================\n\n.. sidebar-links::\n   :home:\n   :pypi:\n\n.. toctree::\n   :maxdepth: 1\n\n   history\n"

/-- Fixed part of the index page after the generated module entries (the
trailing newline of `f'{body}\n'` followed by the indices block). -/
def pageTail : String :=
  "\n\nIndices and tables\n==================\n\n* :ref:`genindex`\n* :ref:`modindex`\n* :ref:`search`\n"

set_option linter.unusedVariables false in
/-- Embedding of `make_index_rst` from `core.py`.  The `package_name`
argument is accepted and unused, exactly as in the source. -/
def make_index_rst (package_name : String) (modules : List String) : String :=
  pageHead ++ entriesBody modules ++ pageTail

/-- A subprocess environment: a mapping from variable names to values. -/
abbrev Env := String → Option String

/-- Platform path-list separator (`os.pathsep` on POSIX). -/
def pathsep : String := ":"

/-- Modelled from the spec: `pip_run.launch._path_insert` is an external
dependency; per the spec and the doctest of `build_env`, it prepends the
item to the existing path-list value with the platform separator, and on an
empty existing value yields the item alone. -/
def path_insert (var item : String) : String :=
  if var = "" then item else item ++ pathsep ++ var

/-- Embedding of `build_env` from `core.py`: overlay `PYTHONPATH` (target
prepended to the original value, absent read as `''`) and
`PYTHONSAFEPATH='1'` on top of a copy of the original environment. -/
def build_env (target : String) (orig : Env) : Env :=
  fun k =>
    if k = "PYTHONPATH" then some (path_insert ((orig "PYTHONPATH").getD "") target)
    else if k = "PYTHONSAFEPATH" then some "1"
    else orig k

/-- Contents of the `docs/` tree: a mapping from file path to contents. -/
abbrev DocFS := String → Option String

/-- Write one file. -/
def fsUpdate (fs : DocFS) (p v : String) : DocFS :=
  fun q => if q = p then some v else fs q

/-- Delete one file. -/
def fsDelete (fs : DocFS) (p : String) : DocFS :=
  fun q => if q = p then none else fs q

/-- Modelled from the spec: scope entry of `bootstrap.assured` from
`coherent.build` (not under `src/`): create the file with the generated
content only if it does not exist, and remember whether this run created
it. -/
def assuredEnter (p content : String) (fs : DocFS) : DocFS × Bool :=
  match fs p with
  | none => (fsUpdate fs p content, true)
  | some _ => (fs, false)

/-- Modelled from the spec: scope exit of `bootstrap.assured`: delete the
file if and only if this run created it. -/
def assuredExit (p : String) (created : Bool) (fs : DocFS) : DocFS :=
  if created then fsDelete fs p else fs

/-- Path of the generated Sphinx configuration file. -/
def confPath : String := "docs/conf.py"

/-- Path of the generated index page. -/
def indexPath : String := "docs/index.rst"

/-- Embedding of the `configure_docs` scope from `core.py`: enter the two
assured files, run the enclosed build (`body` returns the new filesystem and
a success flag; a raised exception is the `false` outcome — the context
managers exit either way), then exit both scopes. -/
def configure_docs (confContent indexContent : String)
    (body : DocFS → DocFS × Bool) (fs0 : DocFS) : DocFS :=
  let e1 := assuredEnter confPath confContent fs0
  let e2 := assuredEnter indexPath indexContent e1.1
  let r := body e2.1
  assuredExit confPath e1.2 (assuredExit indexPath e2.2 r.1)

/-- Python whitespace stripped by `str.strip()` (ASCII range). -/
def isPyWs (c : Char) : Bool :=
  c = ' ' || c = '\t' || c = '\n' || c = '\r' || c = '\x0b' || c = '\x0c'

/-- Python `s.strip()`. -/
def stripWs (s : String) : String :=
  String.mk (((s.toList.dropWhile isPyWs).reverse.dropWhile isPyWs).reverse)

/-- Python `s.rpartition('/')[2]`: the segment after the last slash (the
whole string when there is no slash). -/
def lastSlashSegment (s : String) : String :=
  String.mk ((splitOnChar '/' s.toList).getLastD [])

/-- Python `s.removesuffix('.git')`. -/
def stripDotGit (s : String) : String :=
  match s.toList.reverse with
  | 't' :: 'i' :: 'g' :: '.' :: rest => String.mk rest.reverse
  | _ => s

/-- The name derived from the raw `git remote get-url origin` output:
`origin.strip().rpartition('/')[2].removesuffix('.git')`. -/
def originName (raw : String) : String :=
  stripDotGit (lastSlashSegment (stripWs raw))

/-- Embedding of `get_package_name` from `core.py`.  `gitOrigin` is the raw
stdout of the VCS lookup, `none` when the command raised (the `except`
branch); `cwdName` is `pathlib.Path('.').absolute().name`.  The function is
total: every lookup failure is caught. -/
def get_package_name (gitOrigin : Option String) (cwdName : String) : String :=
  match gitOrigin with
  | some raw =>
    let name := originName raw
    if name = "" then cwdName else name
  | none => cwdName

/-- Python `pathlib.PurePath.name` of an absolute path given by its
components: the last component, or `''` for the filesystem root `/`. -/
def pathName (absParts : List String) : String := absParts.getLastD ""

/-- Spec-side rendering of the module entries after the first: every later
module contributes its section header followed by its directive entry. -/
def specTail : List String → String
  | [] => ""
  | x :: xs => headerBlock x ++ (automoduleBlock x ++ specTail xs)

/-- Sample base environment for exercising `build_env`. -/
def origSample : Env := fun k =>
  if k = "PYTHONPATH" then some "bar" else if k = "HOME" then some "/home/u" else none

/-- Sample enclosed build for exercising `configure_docs`: writes the build
output and reports failure. -/
def bodySample : DocFS → DocFS × Bool :=
  fun fs => (fsUpdate fs "build/docs/index.html" "out", false)

/-- Sample starting filesystem for exercising `configure_docs`: `conf.py`
already present, `index.rst` absent. -/
def fsSample : DocFS := fun p => if p = "docs/conf.py" then some "orig-conf" else none


/-- Helper: `lexLe` is total. -/
theorem lexLe_total (cs ds : List Char) : lexLe cs ds = true ∨ lexLe ds cs = true := by
  induction cs generalizing ds with
  | nil => left; rfl
  | cons a as ih =>
    cases ds with
    | nil => right; rfl
    | cons b bs =>
      rcases lt_trichotomy a b with hlt | heq | hgt
      · left; simp [lexLe, hlt]
      · subst heq
        rcases ih bs with h | h
        · left; simp [lexLe, lt_irrefl, h]
        · right; simp [lexLe, lt_irrefl, h]
      · right; simp [lexLe, hgt]

/-- Helper: `lexLe` is transitive. -/
theorem lexLe_trans (as : List Char) : ∀ bs cs, lexLe as bs = true → lexLe bs cs = true →
    lexLe as cs = true := by
  induction as with
  | nil => intro bs cs _ _; rfl
  | cons a as ih =>
    intro bs cs h1 h2
    cases bs with
    | nil => simp [lexLe] at h1
    | cons b bs =>
      cases cs with
      | nil => simp [lexLe] at h2
      | cons c cs =>
        by_cases hab : a < b
        · by_cases hbc : b < c
          · simp [lexLe, lt_trans hab hbc]
          · by_cases hbc2 : b = c
            · subst hbc2; simp [lexLe, hab]
            · simp [lexLe, hbc, hbc2] at h2
        · by_cases hab2 : a = b
          · subst hab2
            simp only [lexLe, lt_irrefl, if_false, if_pos rfl] at h1
            by_cases hac : a < c
            · simp [lexLe, hac]
            · by_cases hac2 : a = c
              · subst hac2
                simp only [lexLe, lt_irrefl, if_false, if_pos rfl] at h2 ⊢
                exact ih bs cs h1 h2
              · simp [lexLe, hac, hac2] at h2
          · simp [lexLe, hab, hab2] at h1

/-- Helper: `moduleKeyLe` in propositional form. -/
theorem ModLe_iff (a b : String) :
    ModLe a b ↔ countDots a < countDots b ∨ (countDots a = countDots b ∧ strLe a b = true) := by
  simp [ModLe, moduleKeyLe]

/-- Helper: the sort key order of `find_modules` is total. -/
theorem ModLe_total (a b : String) : ModLe a b ∨ ModLe b a := by
  rcases Nat.lt_trichotomy (countDots a) (countDots b) with h | h | h
  · left; exact (ModLe_iff a b).mpr (Or.inl h)
  · rcases lexLe_total a.toList b.toList with hs | hs
    · left; exact (ModLe_iff a b).mpr (Or.inr ⟨h, hs⟩)
    · right; exact (ModLe_iff b a).mpr (Or.inr ⟨h.symm, hs⟩)
  · right; exact (ModLe_iff b a).mpr (Or.inl h)

/-- Helper: the sort key order of `find_modules` is transitive. -/
theorem ModLe_trans (a b c : String) (h1 : ModLe a b) (h2 : ModLe b c) : ModLe a c := by
  rw [ModLe_iff] at h1 h2 ⊢
  rcases h1 with h1 | ⟨h1e, h1s⟩
  · rcases h2 with h2 | ⟨h2e, _⟩
    · exact Or.inl (Nat.lt_trans h1 h2)
    · exact Or.inl (h2e ▸ h1)
  · rcases h2 with h2 | ⟨h2e, h2s⟩
    · exact Or.inl (h1e ▸ h2)
    · exact Or.inr ⟨h1e.trans h2e, lexLe_trans _ _ _ h1s h2s⟩

/-- Helper: `find_modules` is the final sort applied to the raw module list;
in the short-circuit branch the two sides are the same singleton. -/
theorem find_modules_eq_sort_raw (package_name : String) (fs : FS) :
    find_modules package_name fs = sortModules (rawModules package_name fs) := by
  simp only [find_modules, rawModules]
  split
  · rfl
  · split
    · rfl
    · rfl

/-- C3 (confirmed): for the flat layout with files `__init__.py`, `a.py`,
`b/c.py`, `b/__init__.py`, `_private.py`, discovery over `pkg` yields
exactly `['pkg', 'pkg.a', 'pkg.b', 'pkg.b.c']`, excluding the
underscore-marked module. -/
theorem find_modules_flat_sample :
    find_modules "pkg"
      ⟨[["__init__.py"], ["a.py"], ["b", "c.py"], ["b", "__init__.py"], ["_private.py"]],
       [["b"]]⟩ = ["pkg", "pkg.a", "pkg.b", "pkg.b.c"] := by decide

/-- C1 (counterexample): with a flat root holding both `b.py` and
`b/__init__.py`, both files map to `pkg.b` and `find_modules` returns the
name twice — the output list is not duplicate-free. -/
theorem find_modules_duplicate_on_collision :
    find_modules "pkg" ⟨[["__init__.py"], ["b.py"], ["b", "__init__.py"]], [["b"]]⟩ =
      ["pkg", "pkg.b", "pkg.b"] ∧
    ¬ (find_modules "pkg" ⟨[["__init__.py"], ["b.py"], ["b", "__init__.py"]], [["b"]]⟩).Nodup := by
  decide

/-- C1 (amended): the discovery output has no duplicated module name
provided no two retained source files map to the same dotted name, i.e.
whenever the pre-sort module list is duplicate-free; sorting never
introduces a duplicate. -/
theorem find_modules_nodup_of_rawModules_nodup (package_name : String) (fs : FS)
    (h : (rawModules package_name fs).Nodup) : (find_modules package_name fs).Nodup := by
  rw [find_modules_eq_sort_raw]
  exact (List.perm_insertionSort ModLe _).symm.nodup h

/-- C1 (witness): on a collision-free flat tree the hypothesis holds and the
output is duplicate-free. -/
theorem find_modules_nodup_witness :
    (rawModules "pkg" ⟨[["__init__.py"], ["a.py"]], []⟩).Nodup ∧
    (find_modules "pkg" ⟨[["__init__.py"], ["a.py"]], []⟩).Nodup :=
  ⟨by decide, find_modules_nodup_of_rawModules_nodup "pkg" _ (by decide)⟩

/-- C2 (counterexample): a nested-layout root with no `__init__.py` but with
a `pkg/` subdirectory holding `mod.py` does not return the bare package
name: discovery walks the subdirectory instead. -/
theorem find_modules_nested_layout_not_bare :
    pathExists ⟨[["pkg", "mod.py"]], [["pkg"]]⟩ ["__init__.py"] = false ∧
    find_modules "pkg" ⟨[["pkg", "mod.py"]], [["pkg"]]⟩ = ["pkg.mod"] ∧
    find_modules "pkg" ⟨[["pkg", "mod.py"]], [["pkg"]]⟩ ≠ ["pkg"] := by decide

/-- C2 (amended): when the root has no `__init__.py` and the top-level
package subdirectory does not exist either (in particular for a nonexistent
or empty root), discovery returns exactly the bare package name. -/
theorem find_modules_no_marker_returns_bare (package_name : String) (fs : FS)
    (h1 : pathExists fs ["__init__.py"] = false)
    (h2 : pathExists fs [topComponent package_name] = false) :
    find_modules package_name fs = [package_name] := by
  simp [find_modules, h1, h2]

/-- C2 (witness): the empty filesystem with an arbitrary dashed package
name. -/
theorem find_modules_no_marker_witness :
    pathExists ⟨[], []⟩ ["__init__.py"] = false ∧
    find_modules "some-pkg" (⟨[], []⟩ : FS) = ["some-pkg"] :=
  ⟨by decide, find_modules_no_marker_returns_bare "some-pkg" ⟨[], []⟩ (by decide) (by decide)⟩

/-- C9 (confirmed): on an empty module list `make_index_rst` reads no list
element and returns exactly the fixed page template, with no section header
and no directive block. -/
theorem make_index_rst_empty_modules (package_name : String) :
    make_index_rst package_name [] =
      "Welcome to |project| documentation!\n===================================\n\n.. sidebar-links::\n   :home:\n   :pypi:\n\n.. toctree::\n   :maxdepth: 1\n\n   history\n\n\nIndices and tables\n==================\n\n* :ref:`genindex`\n* :ref:`modindex`\n* :ref:`search`\n" :=
  rfl

/-- C4 (confirmed): the list returned by `find_modules` is ordered by the
key (dot count, then lexicographic name): each adjacent pair has strictly
fewer dots on the left, or equal dot counts and a lexicographically
smaller-or-equal left name; in particular the zero-dot root module can only
appear first. -/
theorem find_modules_sorted_by_depth_then_name (package_name : String) (fs : FS) :
    List.Chain'
      (fun a b => countDots a < countDots b ∨ (countDots a = countDots b ∧ strLe a b = true))
      (find_modules package_name fs) := by
  rw [find_modules_eq_sort_raw]
  have hsorted :=
    @List.sorted_insertionSort String ModLe _ ⟨ModLe_total⟩ ⟨ModLe_trans⟩
      (rawModules package_name fs)
  exact (List.Pairwise.imp (fun hab => (ModLe_iff _ _).mp hab) hsorted).chain'

/-- Helper: when every element of a list differs from the first module, the
loop body of `make_index_rst` renders a header before every entry. -/
theorem entriesFrom_eq_specTail (first : String) (l : List String)
    (h : ∀ x ∈ l, x ≠ first) : entriesFrom first l = specTail l := by
  induction l with
  | nil => rfl
  | cons x xs ih =>
    have hx : (x == first) = false := by
      simp only [beq_eq_false_iff_ne]
      exact h x (List.mem_cons_self x xs)
    rw [entriesFrom, specTail, hx]
    simp only [Bool.false_eq_true, if_false]
    rw [ih (fun y hy => h y (List.mem_cons_of_mem x hy))]

/-- C5 (confirmed): on a non-empty module list whose later entries all
differ from the first (as is the case for the deduplicated sorted lists the
spec describes), the first module gets no section header and every
subsequent module is rendered as its header — last dotted component,
underscores to spaces, title-cased, underlined by a dash rule of the
header's length — followed by its directive block. -/
theorem make_index_rst_headers_after_first (package_name m : String) (rest : List String)
    (h : ∀ x ∈ rest, x ≠ m) :
    make_index_rst package_name (m :: rest) =
      pageHead ++ (automoduleBlock m ++ specTail rest) ++ pageTail := by
  rw [make_index_rst, entriesBody, entriesFrom, entriesFrom_eq_specTail m rest h]
  simp only [beq_self_eq_true, if_true, String.empty_append]

/-- C5 (witness): for `['pkg', 'pkg.sub_mod']` the second module's header
reads `Sub Mod` underlined with exactly 7 dashes. -/
theorem make_index_rst_headers_witness :
    headerBlock "pkg.sub_mod" = "\nSub Mod\n-------\n" ∧
    "\nSub Mod\n-------\n".toList.count '-' = 7 ∧
    make_index_rst "pkg" ["pkg", "pkg.sub_mod"] =
      pageHead ++ (automoduleBlock "pkg" ++ specTail ["pkg.sub_mod"]) ++ pageTail :=
  ⟨by decide, by decide,
    make_index_rst_headers_after_first "pkg" "pkg" ["pkg.sub_mod"] (by decide)⟩

/-- C10 (confirmed): the header decision compares by value with
`modules[0]`, not by position: in `[m, x, m]` the trailing duplicate of the
first module is rendered with no header while `x ≠ m` gets one. -/
theorem make_index_rst_dup_of_first_no_header (package_name m x : String) (h : x ≠ m) :
    make_index_rst package_name [m, x, m] =
      pageHead ++
        (automoduleBlock m ++ (headerBlock x ++ (automoduleBlock x ++ automoduleBlock m))) ++
        pageTail := by
  have hx : (x == m) = false := beq_eq_false_iff_ne.mpr h
  simp only [make_index_rst, entriesBody, entriesFrom, beq_self_eq_true, if_true, hx,
    Bool.false_eq_true, if_false, String.empty_append, String.append_empty]

/-- C10 (witness): concrete duplicate-of-first rendering. -/
theorem make_index_rst_dup_witness :
    make_index_rst "p" ["p", "p.q", "p"] =
      pageHead ++
        (automoduleBlock "p" ++ (headerBlock "p.q" ++ (automoduleBlock "p.q" ++ automoduleBlock "p"))) ++
        pageTail :=
  make_index_rst_dup_of_first_no_header "p" "p" "p.q" (by decide)

/-- C6 (confirmed): `build_env` maps `PYTHONPATH` to the target prepended
with the separator to a non-empty original value and to the target alone
when the variable is absent or empty, sets `PYTHONSAFEPATH` to `'1'`, and
leaves every other variable of the base environment unchanged (the base
mapping itself is never mutated: the embedding is a pure function). -/
theorem build_env_spec (target : String) (orig : Env) :
    build_env target orig "PYTHONPATH" =
      some (match orig "PYTHONPATH" with
        | none => target
        | some v => if v = "" then target else target ++ pathsep ++ v) ∧
    build_env target orig "PYTHONSAFEPATH" = some "1" ∧
    ∀ k, k ≠ "PYTHONPATH" → k ≠ "PYTHONSAFEPATH" → build_env target orig k = orig k := by
  refine ⟨?_, rfl, ?_⟩
  · cases horig : orig "PYTHONPATH" with
    | none => simp [build_env, path_insert, horig]
    | some v => by_cases hv : v = "" <;> simp [build_env, path_insert, horig, hv]
  · intro k h1 h2
    simp [build_env, h1, h2]

/-- C6 (witness): concrete base environment with `PYTHONPATH='bar'` and an
unrelated `HOME` entry. -/
theorem build_env_spec_witness :
    build_env "foo" origSample "PYTHONPATH" = some "foo:bar" ∧
    build_env "foo" origSample "PYTHONSAFEPATH" = some "1" ∧
    build_env "foo" origSample "HOME" = some "/home/u" := by
  obtain ⟨h1, h2, h3⟩ := build_env_spec "foo" origSample
  exact ⟨h1.trans (by decide), h2, (h3 "HOME" (by decide) (by decide)).trans (by decide)⟩

/-- C7 (confirmed): after the `configure_docs` scope exits — the enclosed
build may succeed or fail, and a raised exception still runs the exits —
each scaffold file that was absent beforehand is absent again, and each
that was present beforehand keeps its original content; the hypothesis says
the enclosed build itself does not touch the two scaffold paths. -/
theorem configure_docs_restores_scaffold (confContent indexContent : String)
    (body : DocFS → DocFS × Bool) (fs0 : DocFS)
    (hbody : ∀ fs, (body fs).1 confPath = fs confPath ∧ (body fs).1 indexPath = fs indexPath) :
    configure_docs confContent indexContent body fs0 confPath = fs0 confPath ∧
    configure_docs confContent indexContent body fs0 indexPath = fs0 indexPath := by
  have hne1 : ¬ (indexPath = confPath) := by decide
  have hne2 : ¬ (confPath = indexPath) := by decide
  cases hc : fs0 confPath <;> cases hi : fs0 indexPath <;>
    constructor <;>
      simp [configure_docs, assuredEnter, assuredExit, fsUpdate, fsDelete, hc, hi,
        hne1, hne2, hbody]

/-- C7 (witness): starting with `conf.py` present and `index.rst` absent,
and a failing build that writes elsewhere, the scope restores both paths. -/
theorem configure_docs_restores_witness :
    configure_docs "CONF" "INDEX" bodySample fsSample confPath = some "orig-conf" ∧
    configure_docs "CONF" "INDEX" bodySample fsSample indexPath = none := by
  have hb : ∀ fs : DocFS, (bodySample fs).1 confPath = fs confPath ∧
      (bodySample fs).1 indexPath = fs indexPath := by
    intro fs
    constructor
    · show (if confPath = "build/docs/index.html" then some "out" else fs confPath) = fs confPath
      exact if_neg (by decide)
    · show (if indexPath = "build/docs/index.html" then some "out" else fs indexPath) =
        fs indexPath
      exact if_neg (by decide)
  obtain ⟨h1, h2⟩ := configure_docs_restores_scaffold "CONF" "INDEX" bodySample fsSample hb
  exact ⟨h1.trans (by decide), h2.trans (by decide)⟩

/-- C8 (counterexample): when the VCS lookup fails and the current working
directory is the filesystem root `/` — whose pathlib name is the empty
string — `get_package_name` returns the empty string, refuting the claim
that the result is non-empty for every working directory. -/
theorem get_package_name_empty_at_fs_root :
    pathName [] = "" ∧ get_package_name none (pathName []) = "" := by decide

/-- C8 (amended): `get_package_name` never raises (every lookup failure is
the `none` input of this total function) and returns a non-empty string
whenever the working directory's name is non-empty; a non-empty VCS-derived
name is returned as-is, and every failure falls back to the directory
name. -/
theorem get_package_name_nonempty (gitOrigin : Option String) (cwdName : String)
    (h : cwdName ≠ "") : get_package_name gitOrigin cwdName ≠ "" := by
  cases gitOrigin with
  | none => exact h
  | some raw =>
    by_cases hn : originName raw = ""
    · simpa [get_package_name, hn] using h
    · simp only [get_package_name]
      rw [if_neg hn]
      exact hn

/-- C8 (witness): a realistic remote URL yields the stripped repository
name. -/
theorem get_package_name_nonempty_witness :
    get_package_name (some "https://github.com/org/repo.git\n") "dir" ≠ "" ∧
    get_package_name (some "https://github.com/org/repo.git\n") "dir" = "repo" :=
  ⟨get_package_name_nonempty (some "https://github.com/org/repo.git\n") "dir" (by decide),
    by decide⟩
